import Mathlib

/-!
Verification of `src/utils/get_ibc_channels.py` (IBC channel discovery and
aggregation). The Python script is shallowly embedded: JSON dictionaries
become association lists over a small JSON value type, network effects are
injected as explicit capabilities (a `Fetch` record for the per-channel
lookups, an explicit outcome per endpoint for the whole-endpoint fetch),
and Python truthiness is modelled explicitly where the source relies on it.
-/

namespace IbcChannels

/-- JSON leaf values that occur in the script's dictionaries: `None`,
integers and strings. -/
inductive JVal where
  | jnull
  | jint (n : Int)
  | jstr (s : String)
deriving DecidableEq, Repr

/-- Python truthiness of a `JVal`: `None`, `0` and `""` are falsy. -/
def truthy : JVal → Bool
  | .jnull => false
  | .jint n => n != 0
  | .jstr s => s != ""

/-- Python `x or ""` applied to the result of a `dict.get` (which is `None`
for a missing key): falsy values collapse to the empty string. -/
def pyOrStr (v : Option JVal) : JVal :=
  match v with
  | some x => if truthy x then x else JVal.jstr ""
  | none => JVal.jstr ""

/-- Lookup in a Python dict modelled as an insertion-ordered association
list (`dict.get`, returning `None` when the key is missing). -/
def alGet {α : Type} (l : List (String × α)) (k : String) : Option α :=
  match l with
  | [] => none
  | (a, b) :: t => if a = k then some b else alGet t k

/-- Lookup with a default (`dict.get(k, d)` / `dict.setdefault` read). -/
def alGetD {α : Type} (l : List (String × α)) (k : String) (d : α) : α :=
  (alGet l k).getD d

/-- Assignment `d[k] = v` on an insertion-ordered dict: update the existing
slot in place, or append the key at the end. -/
def alSet {α : Type} (l : List (String × α)) (k : String) (v : α) : List (String × α) :=
  match l with
  | [] => [(k, v)]
  | (a, b) :: t => if a = k then (k, v) :: t else (a, b) :: alSet t k v

/-- Boolean prefix test on character lists (used to model Python's
`str.startswith`). -/
def listIsPrefix : List Char → List Char → Bool
  | [], _ => true
  | _ :: _, [] => false
  | a :: as, b :: bs => a == b && listIsPrefix as bs

/-- Python's `str.startswith` on the ASCII identifiers this script
handles. -/
def strStartsWith (s p : String) : Bool :=
  listIsPrefix p.toList s.toList

/-- Dropping the first `n` characters of a string (the result of
`split(sep, 1)[1]` when the separator position is pinned by a prefix
guard). -/
def strDrop (s : String) (n : Nat) : String :=
  String.mk (s.toList.drop n)

/-- Digit run of a CPython decimal integer literal: digits with single
underscores allowed between digits (ASCII digits, as used by `int(str)` on
the identifiers this script handles). Accumulates the value. -/
def pyDigits : Nat → List Char → Option Nat
  | acc, [] => some acc
  | acc, '_' :: c :: rest =>
    if c.isDigit then pyDigits (acc * 10 + (c.toNat - 48)) rest else none
  | _, ['_'] => none
  | acc, c :: rest =>
    if c.isDigit then pyDigits (acc * 10 + (c.toNat - 48)) rest else none

/-- CPython `int(s)` on a string: optional surrounding whitespace, an
optional sign, then a non-empty digit run; any other shape raises, which the
embedding models as `none`. -/
def pyInt (s : String) : Option Int :=
  let cs := ((s.toList.dropWhile Char.isWhitespace).reverse.dropWhile Char.isWhitespace).reverse
  match cs with
  | '+' :: rest =>
    match rest with
    | [] => none
    | c :: _ => if c.isDigit then (pyDigits 0 rest).map Int.ofNat else none
  | '-' :: rest =>
    match rest with
    | [] => none
    | c :: _ => if c.isDigit then (pyDigits 0 rest).map (fun n => -(n : Int)) else none
  | [] => none
  | c :: _ => if c.isDigit then (pyDigits 0 cs).map Int.ofNat else none

/-- Embedding of `parse_channel_number`: `None`/empty is falsy and yields
`None`; a `channel-` prefixed id parses the part after the first dash
(`split("-", 1)[1]`, i.e. `drop 8` given the guard); otherwise the whole
string is parsed; any parse failure is caught and yields `None`. -/
def parse_channel_number : Option String → Option Int
  | none => none
  | some s =>
    if s = "" then none
    else if strStartsWith s "channel-" then pyInt (strDrop s 8)
    else pyInt s

/-- Embedding of `normalize_state`: falsy input gives `None`; a
`STATE_`-prefixed value is split at its first underscore (`split("_", 1)[1]`,
i.e. `drop 6` given the guard); anything else is returned unchanged. -/
def normalize_state : Option String → Option String
  | none => none
  | some s =>
    if s = "" then none
    else if strStartsWith s "STATE_" then some (strDrop s 6)
    else some s

/-- The aggregator's `normalize_state(r.get("state")) or "UNKNOWN"`: a falsy
normalized state collapses to the literal `"UNKNOWN"`. -/
def stateNormD (st : Option String) : String :=
  match normalize_state st with
  | some s => if s = "" then "UNKNOWN" else s
  | none => "UNKNOWN"

/-! Paginated fetcher (`paginate_channels`). A response page carries the
`channels` list and the `pagination.next_key` cursor; an absent `pagination`
object and an absent cursor both model as `none`. The loop is embedded with
explicit fuel; the response sequence is the i-th server answer. -/

/-- One raw entry of the channel-list resource, as read by the script:
`channel_id`, `port_id` and `state` via `dict.get` (hence `Option`). -/
structure RawChannel where
  channel_id : Option String := none
  port_id : Option String := none
  state : Option String := none
deriving DecidableEq, Repr

/-- One page of the paginated channel-list response. -/
structure Page where
  channels : List RawChannel := []
  next_key : Option String := none
deriving Repr

/-- Loop exit test of `paginate_channels`: `if not next_key_b64: break`
(cursor absent or empty string, both falsy). -/
def cursorDone (p : Page) : Bool :=
  match p.next_key with
  | none => true
  | some s => s = ""

/-- Fueled embedding of the `while True` loop of `paginate_channels`,
accumulating from the i-th response onward. -/
def paginate_channels_from (resp : Nat → Page) : Nat → Nat → List RawChannel
  | 0, _ => []
  | fuel + 1, i =>
    let p := resp i
    if cursorDone p then p.channels
    else p.channels ++ paginate_channels_from resp fuel (i + 1)

/-- Embedding of `paginate_channels`: run the pagination loop from the first
response with the given fuel. -/
def paginate_channels (resp : Nat → Page) (fuel : Nat) : List RawChannel :=
  paginate_channels_from resp fuel 0

/-! Channel resolver (`map_channels`). The three dependent lookups of the
resolution chain (`get_channel`, `get_connection`, `get_client_state`) are
injected as a capability record; a raised exception inside a lookup is an
`Except.error` carrying `str(e)`. -/

/-- Fields of the re-fetched channel detail the script reads:
`channel.counterparty.{channel_id,port_id}` (via `get`, with `or {}`
defaults) and `channel.connection_hops` (`or []`). -/
structure ChannelDetail where
  counterparty_channel_id : Option String := none
  counterparty_port_id : Option String := none
  connection_hops : List String := []
deriving DecidableEq, Repr

/-- Field of the connection detail the script reads: `connection.client_id`. -/
structure ConnectionDetail where
  client_id : Option String := none
deriving DecidableEq, Repr

/-- Shape of the `client_state` object inside the client-state response:
an optional direct `chain_id`, and an optional `value` sub-dict (present
exactly when `value` exists and is a dict) whose `chain_id` field is itself
optional. -/
structure ClientStateInner where
  chain_id : Option String := none
  value : Option (Option String) := none
deriving DecidableEq, Repr

/-- Injected lookup capability for the per-channel resolution chain. Each
call either returns the parsed response or raises with a message. -/
structure Fetch where
  channelDetail : Option String → Option String → Except String ChannelDetail
  connection : String → Except String ConnectionDetail
  clientState : Option String → Except String (Option ClientStateInner)

/-- Embedding of `extract_chain_id_from_client_state`: take the
`client_state` object (`or {}` on absence), return its `chain_id` if truthy,
else the `value` dict's `chain_id` when `value` is a dict, else `None`. -/
def extract_chain_id_from_client_state (obj : Option ClientStateInner) : Option String :=
  let cs := obj.getD {}
  let viaValue : Option String :=
    match cs.value with
    | some v => v
    | none => none
  match cs.chain_id with
  | some s => if s = "" then viaValue else some s
  | none => viaValue

/-- The enriched per-channel record built by `map_channels`. A missing dict
key reads back as `none`; error stubs carry only `channel_id`, `port_id`
and `error`. -/
structure ResolvedChannel where
  channel_id : Option String := none
  port_id : Option String := none
  counterparty_channel_id : Option String := none
  counterparty_port_id : Option String := none
  connection_id : Option String := none
  client_id : Option String := none
  counterparty_chain_id : Option String := none
  state : Option String := none
  error : Option String := none
deriving DecidableEq, Repr

/-- Error stub appended by the `except` clause of the `map_channels` loop. -/
def errStub (ch : RawChannel) (e : String) : ResolvedChannel :=
  { channel_id := ch.channel_id, port_id := ch.port_id, error := some e }

/-- Guard `if state_filter and state != state_filter: continue` of the
`map_channels` loop (truthiness of the optional filter made explicit). -/
def stateFilterSkips (state_filter : Option String) (st : Option String) : Bool :=
  match state_filter with
  | some v => v != "" && st != some v
  | none => false

/-- Body of the `map_channels` loop for one raw channel: the two filter
`continue`s, the silent discard on empty `connection_hops`, and the
`except` clause turning any raised step into an error stub. Yields zero or
one records. -/
def processChannel (port_filter : String) (state_filter : Option String)
    (f : Fetch) (ch : RawChannel) : List ResolvedChannel :=
  if port_filter ≠ "" ∧ ch.port_id ≠ some port_filter then []
  else if stateFilterSkips state_filter ch.state then []
  else
    match f.channelDetail ch.channel_id ch.port_id with
    | .error e => [errStub ch e]
    | .ok d =>
      match d.connection_hops with
      | [] => []
      | connection_id :: _ =>
        match f.connection connection_id with
        | .error e => [errStub ch e]
        | .ok conn =>
          match f.clientState conn.client_id with
          | .error e => [errStub ch e]
          | .ok cso =>
            [{ channel_id := ch.channel_id,
               port_id := ch.port_id,
               counterparty_channel_id := d.counterparty_channel_id,
               counterparty_port_id := d.counterparty_port_id,
               connection_id := some connection_id,
               client_id := conn.client_id,
               counterparty_chain_id := extract_chain_id_from_client_state cso,
               state := ch.state,
               error := none }]

/-- Embedding of `map_channels` over an already fetched raw channel list:
the loop emits zero or one records per raw channel, in order. -/
def map_channels (port_filter : String) (state_filter : Option String)
    (f : Fetch) (raws : List RawChannel) : List ResolvedChannel :=
  (raws.map (processChannel port_filter state_filter f)).flatten

/-! Aggregator (`aggregate_all` and its inner `should_replace`). The nested
result dict is an association list of association lists; each leaf is itself
a small dict of `JVal`s, so the exact key strings the script writes
(`"source channel"`, `"destiation channel"`, `"state"`, and `"message"`
under `"__error__"`) are part of the model. -/

/-- A leaf dict of the aggregate (either a channel entry or the
`__error__` diagnostic). -/
abbrev Leaf := List (String × JVal)

/-- A per-local-symbol map of the aggregate. -/
abbrev LocalMap := List (String × Leaf)

/-- The whole aggregate result. -/
abbrev AggResult := List (String × LocalMap)

/-- Chain-id to symbol map fed to the aggregator. -/
abbrev ChainMap := List (String × String)

/-- Embedding of `build_chain_id_symbol_map` over the configured
(symbol, base-url) list and an injected `get_local_chain_id` capability:
only truthy chain ids are recorded. -/
def build_chain_id_symbol_map (urls : List (String × String))
    (get_local_chain_id : String → Option String) : ChainMap :=
  urls.foldl
    (fun m p =>
      match get_local_chain_id p.2 with
      | some cid => if cid = "" then m else alSet m cid p.1
      | none => m)
    []

/-- Wrap an optional integer as the stored JSON value. -/
def optJ : Option Int → JVal
  | none => .jnull
  | some n => .jint n

/-- The value `int(existing.get("source channel"))` guarded by
`is not None` and wrapped in `try/except`: a stored integer parses to
itself, a stored string goes through `int(str)`, everything else (missing
key, `None`) is `None`. -/
def exNumOf (ex : Leaf) : Option Int :=
  match alGet ex "source channel" with
  | some (.jint n) => some n
  | some (.jstr s) => pyInt s
  | _ => none

/-- Tie-break tail of `should_replace` (both sides have the same
OPEN-ness): an absent existing number always loses, an absent candidate
number then loses, else the strictly smaller candidate number wins. -/
def srTail (existing_num candidate_src_num : Option Int) : Bool :=
  match existing_num with
  | none => true
  | some m =>
    match candidate_src_num with
    | none => false
    | some c => decide (c < m)

/-- Embedding of the nested `should_replace`: the `if not existing`
truthiness shortcut, the two OPEN-preference branches on
`existing.get("state") or ""`, then the smaller-source-number tie-break. -/
def should_replace (existing : Option Leaf) (candidate_state : String)
    (candidate_src_num : Option Int) : Bool :=
  match existing with
  | none => true
  | some ex =>
    if ex = [] then true
    else
      let existing_state := pyOrStr (alGet ex "state")
      if existing_state ≠ JVal.jstr "OPEN" ∧ candidate_state = "OPEN" then true
      else if existing_state = JVal.jstr "OPEN" ∧ candidate_state ≠ "OPEN" then false
      else srTail (exNumOf ex) candidate_src_num

/-- The nested key `chain_id_to_symbol.get(cp_chain_id, cp_chain_id or
"UNKNOWN")`: a resolved symbol wins, else the raw truthy chain id, else the
placeholder. (A `None` chain id is never a key of the string-keyed map.) -/
def cp_key (cm : ChainMap) (cp_chain_id : Option String) : String :=
  match cp_chain_id with
  | some s =>
    match alGet cm s with
    | some sym => sym
    | none => if s = "" then "UNKNOWN" else s
  | none => "UNKNOWN"

/-- The candidate leaf dict built for one resolved row, with the script's
literal key strings. -/
def mkCand (r : ResolvedChannel) : Leaf :=
  [("source channel", optJ (parse_channel_number r.channel_id)),
   ("destiation channel", optJ (parse_channel_number r.counterparty_channel_id)),
   ("state", JVal.jstr (stateNormD r.state))]

/-- Truthiness of `r.get("error")` (the skip guard of the aggregation
loop): present and non-empty. -/
def errTruthy : Option String → Bool
  | some s => s != ""
  | none => false

/-- Body of the aggregation loop `for r in rows` for one resolved row:
skip truthy-errored rows and non-transfer ports, then store the candidate
when `should_replace` says so. -/
def mergeRow (cm : ChainMap) (lm : LocalMap) (r : ResolvedChannel) : LocalMap :=
  if errTruthy r.error then lm
  else if r.port_id ≠ some "transfer" then lm
  else
    let k := cp_key cm r.counterparty_chain_id
    let cand := mkCand r
    if should_replace (alGet lm k) (stateNormD r.state) (parse_channel_number r.channel_id)
    then alSet lm k cand
    else lm

/-- Outcome of the whole-endpoint fetch inside `aggregate_all`: either the
resolved rows, or the message of the exception caught by the per-endpoint
`except` clause. -/
abbrev EndpointRun := String × Except String (List ResolvedChannel)

/-- One iteration of the endpoint loop of `aggregate_all`: on failure,
`result.setdefault(sym, {})["__error__"] = {"message": str(e)}`; on
success, `result.setdefault(sym, {})` then the row loop mutating that
local map. -/
def stepEndpoint (cm : ChainMap) (res : AggResult) (ep : EndpointRun) : AggResult :=
  match ep.2 with
  | .error msg =>
    alSet res ep.1 (alSet (alGetD res ep.1 []) "__error__" [("message", JVal.jstr msg)])
  | .ok rows =>
    alSet res ep.1 (rows.foldl (mergeRow cm) (alGetD res ep.1 []))

/-- Embedding of `aggregate_all` with the network effects made explicit:
the chain-id map built up-front and, per configured endpoint, the outcome
of its `map_channels` call. -/
def aggregate_all (eps : List EndpointRun) (cm : ChainMap) : AggResult :=
  eps.foldl (stepEndpoint cm) []

/-- Shape invariant of aggregate leaves: a leaf is either the `__error__`
diagnostic (sole key `message`) or a channel entry with exactly the three
keys the script writes, in order. -/
def leafKeysOK (v : Leaf) : Prop :=
  v.map Prod.fst = ["message"]
  ∨ v.map Prod.fst = ["source channel", "destiation channel", "state"]

/-- Every leaf of a local map satisfies the shape invariant. -/
def lmOK (lm : LocalMap) : Prop :=
  ∀ k v, (k, v) ∈ lm → leafKeysOK v

/-- Every local map of a result satisfies the shape invariant. -/
def resOK (res : AggResult) : Prop :=
  ∀ s lm, (s, lm) ∈ res → lmOK lm

/-! Concrete fixtures used by the counterexamples and witnesses below. -/

/-- End-to-end row of the single-channel scenario: an `OPEN` channel
`channel-12` whose counterparty is `channel-99` on `osmosis-1`. -/
def rowC1 : ResolvedChannel :=
  { channel_id := some "channel-12", port_id := some "transfer",
    counterparty_channel_id := some "channel-99",
    counterparty_chain_id := some "osmosis-1", state := some "OPEN" }

/-- The leaf the aggregator stores for `rowC1`. -/
def leafC1 : Leaf :=
  [("source channel", JVal.jint 12),
   ("destiation channel", JVal.jint 99),
   ("state", JVal.jstr "OPEN")]

/-- Candidate with source `channel-5`, destination `channel-1`, OPEN. -/
def rowA2 : ResolvedChannel :=
  { channel_id := some "channel-5", port_id := some "transfer",
    counterparty_channel_id := some "channel-1",
    counterparty_chain_id := some "foo-7", state := some "OPEN" }

/-- Candidate with source `channel-5`, destination `channel-2`, OPEN. -/
def rowB2 : ResolvedChannel :=
  { channel_id := some "channel-5", port_id := some "transfer",
    counterparty_channel_id := some "channel-2",
    counterparty_chain_id := some "foo-7", state := some "OPEN" }

/-- Candidate with source `channel-8`, OPEN (spec example pair, larger
source number). -/
def rowA2w : ResolvedChannel :=
  { channel_id := some "channel-8", port_id := some "transfer",
    counterparty_channel_id := some "channel-1",
    counterparty_chain_id := some "foo-7", state := some "OPEN" }

/-- Candidate with source `channel-3`, OPEN (spec example pair, smaller
source number). -/
def rowB2w : ResolvedChannel :=
  { channel_id := some "channel-3", port_id := some "transfer",
    counterparty_channel_id := some "channel-2",
    counterparty_chain_id := some "foo-7", state := some "OPEN" }

/-- Lookup capability whose channel-detail call raises with an empty
message (`str(e) == ""`). -/
def fetchBad : Fetch :=
  { channelDetail := fun _ _ => .error "",
    connection := fun _ => .error "unused",
    clientState := fun _ => .error "unused" }

/-- A single transfer-port raw channel. -/
def rawsBad : List RawChannel :=
  [{ channel_id := some "channel-3", port_id := some "transfer", state := some "OPEN" }]

/-- Lookup capability that resolves every step, with a raw LCD state kept
in `STATE_`-prefixed form by the list endpoint. -/
def fetchGood4 : Fetch :=
  { channelDetail := fun _ _ => .ok { counterparty_channel_id := some "channel-9",
                                      counterparty_port_id := some "transfer",
                                      connection_hops := ["connection-0"] },
    connection := fun _ => .ok { client_id := some "07-tendermint-0" },
    clientState := fun _ => .ok (some { chain_id := some "osmosis-1" }) }

/-- Raw channel whose list-endpoint state is the prefixed `STATE_OPEN`. -/
def raw4 : RawChannel :=
  { channel_id := some "channel-1", port_id := some "transfer", state := some "STATE_OPEN" }

/-- The fully resolved record `map_channels` builds for `raw4` under
`fetchGood4`. -/
def resolved4 : ResolvedChannel :=
  { channel_id := some "channel-1", port_id := some "transfer",
    counterparty_channel_id := some "channel-9",
    counterparty_port_id := some "transfer",
    connection_id := some "connection-0",
    client_id := some "07-tendermint-0",
    counterparty_chain_id := some "osmosis-1",
    state := some "STATE_OPEN", error := none }

/-- Channel detail with an empty `connection_hops` list. -/
def detail9 : ChannelDetail :=
  { counterparty_channel_id := some "channel-9",
    counterparty_port_id := some "transfer",
    connection_hops := [] }

/-- Lookup capability whose channel detail resolves but carries no
connection hops. -/
def fetch9 : Fetch :=
  { channelDetail := fun _ _ => .ok detail9,
    connection := fun _ => .error "unused",
    clientState := fun _ => .error "unused" }

/-- Raw transfer channel used with `fetch9`. -/
def raw9 : RawChannel :=
  { channel_id := some "channel-4", port_id := some "transfer", state := some "INIT" }

/-- A three-page response sequence: two items then one item, the second
response carrying no continuation cursor. -/
def respW : Nat → Page := fun i =>
  if i = 0 then { channels := [{ channel_id := some "c0" }, { channel_id := some "c1" }],
                  next_key := some "k" }
  else if i = 1 then { channels := [{ channel_id := some "c2" }] }
  else { channels := [{ channel_id := some "bad" }], next_key := some "loop" }

/-- A stored non-OPEN leaf (INIT, source 10), as in the spec's conflict
example. -/
def leafInit : Leaf :=
  [("source channel", JVal.jint 10),
   ("destiation channel", JVal.jnull),
   ("state", JVal.jstr "INIT")]

/-- A stored local-map holding `leafInit` for `foo-7`. -/
def lmInit : LocalMap := [("foo-7", leafInit)]

/-- OPEN candidate with source `channel-99` for `foo-7` (spec's conflict
example B). -/
def rowOpen99 : ResolvedChannel :=
  { channel_id := some "channel-99", port_id := some "transfer",
    counterparty_channel_id := some "channel-7",
    counterparty_chain_id := some "foo-7", state := some "OPEN" }

/-- INIT candidate with source `channel-10` for `foo-7`. -/
def rowInit10 : ResolvedChannel :=
  { channel_id := some "channel-10", port_id := some "transfer",
    counterparty_channel_id := some "channel-8",
    counterparty_chain_id := some "foo-7", state := some "INIT" }

/-- A stored OPEN leaf with source 7. -/
def leafOpen7 : Leaf :=
  [("source channel", JVal.jint 7),
   ("destiation channel", JVal.jint 1),
   ("state", JVal.jstr "OPEN")]

/-- A stored local-map holding `leafOpen7` for `foo-7`. -/
def lmOpen7 : LocalMap := [("foo-7", leafOpen7)]

/-- OPEN candidate with the same source number 7 but a different
destination, for the exact-tie case. -/
def rowOpen7b : ResolvedChannel :=
  { channel_id := some "channel-7", port_id := some "transfer",
    counterparty_channel_id := some "channel-2",
    counterparty_chain_id := some "foo-7", state := some "OPEN" }

/-- Row with a non-empty error message, for the error-skip witness. -/
def rowErr : ResolvedChannel :=
  { channel_id := some "channel-6", port_id := some "transfer", error := some "boom" }

/-- Endpoint row used by the endpoint-isolation witness: endpoint `B`
resolves the single-channel scenario row. -/
def epsC6 : List EndpointRun :=
  [("B", Except.ok [rowC1]), ("A", Except.error "boom")]

/-! Helper lemmas about the dict model and the aggregator's building
blocks. -/

theorem alGet_alSet_self {α : Type} (l : List (String × α)) (k : String) (v : α) :
    alGet (alSet l k v) k = some v := by
  induction l with
  | nil => simp [alGet, alSet]
  | cons p t ih =>
    by_cases h : p.1 = k
    · simp [alSet, alGet, h]
    · simpa [alSet, alGet, h] using ih

theorem alGet_alSet_ne {α : Type} (l : List (String × α)) (k k' : String) (v : α)
    (h : k ≠ k') : alGet (alSet l k' v) k = alGet l k := by
  have hne : ¬(k' = k) := fun h' => h h'.symm
  induction l with
  | nil => simp [alGet, alSet, hne]
  | cons p t ih =>
    obtain ⟨a, b⟩ := p
    by_cases hp : a = k'
    · simp [alSet, alGet, hp, hne]
    · by_cases hk : a = k
      · simp [alSet, alGet, hp, hk, h]
      · simp [alSet, alGet, hp, hk, ih]

theorem mem_alSet {α : Type} (l : List (String × α)) (k' : String) (v' : α)
    (k : String) (v : α) (h : (k, v) ∈ alSet l k' v') : (k, v) ∈ l ∨ v = v' := by
  induction l with
  | nil =>
    simp [alSet] at h
    exact Or.inr h.2
  | cons p t ih =>
    by_cases hp : p.1 = k'
    · simp [alSet, hp] at h
      rcases h with h | h
      · exact Or.inr h.2
      · exact Or.inl (List.mem_cons_of_mem _ h)
    · simp [alSet, hp] at h
      rcases h with h | h
      · exact Or.inl (by simp [h])
      · rcases ih h with h' | h'
        · exact Or.inl (List.mem_cons_of_mem _ h')
        · exact Or.inr h'

theorem alGet_mem {α : Type} (l : List (String × α)) (k : String) (v : α)
    (h : alGet l k = some v) : (k, v) ∈ l := by
  induction l with
  | nil => simp [alGet] at h
  | cons p t ih =>
    obtain ⟨a, b⟩ := p
    by_cases hp : a = k
    · simp [alGet, hp] at h
      exact List.mem_cons.mpr (Or.inl (by rw [hp, h]))
    · simp [alGet, hp] at h
      exact List.mem_cons_of_mem _ (ih h)

theorem stateNormD_ne_empty (st : Option String) : stateNormD st ≠ "" := by
  unfold stateNormD
  match h : normalize_state st with
  | none => simp
  | some s =>
    by_cases hs : s = "" <;> simp [hs]

theorem alGet_mkCand_state (r : ResolvedChannel) :
    alGet (mkCand r) "state" = some (JVal.jstr (stateNormD r.state)) := rfl

theorem alGet_mkCand_src (r : ResolvedChannel) :
    alGet (mkCand r) "source channel" = some (optJ (parse_channel_number r.channel_id)) := rfl

theorem exNumOf_mkCand (r : ResolvedChannel) :
    exNumOf (mkCand r) = parse_channel_number r.channel_id := by
  unfold exNumOf
  rw [alGet_mkCand_src]
  cases parse_channel_number r.channel_id <;> simp [optJ]

theorem pyOrStr_mkCand_state (r : ResolvedChannel) :
    pyOrStr (alGet (mkCand r) "state") = JVal.jstr (stateNormD r.state) := by
  rw [alGet_mkCand_state]
  simp [pyOrStr, truthy, stateNormD_ne_empty r.state]

theorem mkCand_ne_nil (r : ResolvedChannel) : mkCand r ≠ [] := by
  simp [mkCand]

/-- A truthy-errored row is skipped by the aggregation loop untouched. -/
theorem mergeRow_error_skip (cm : ChainMap) (lm : LocalMap) (r : ResolvedChannel)
    (m : String) (hm : r.error = some m) (hne : m ≠ "") :
    mergeRow cm lm r = lm := by
  simp [mergeRow, errTruthy, hm, hne]

/-- Characterization of `should_replace` against a stored candidate leaf. -/
theorem should_replace_mkCand (c : ResolvedChannel) (s' : String) (n' : Option Int) :
    should_replace (some (mkCand c)) s' n' =
      (if stateNormD c.state ≠ "OPEN" ∧ s' = "OPEN" then true
       else if stateNormD c.state = "OPEN" ∧ s' ≠ "OPEN" then false
       else srTail (parse_channel_number c.channel_id) n') := by
  unfold should_replace
  simp only [pyOrStr_mkCand_state, exNumOf_mkCand, ne_eq, JVal.jstr.injEq,
    if_neg (mkCand_ne_nil c)]

/-- Against a stored non-OPEN candidate, an OPEN candidate always
replaces. -/
theorem should_replace_mkCand_up (c : ResolvedChannel) (s' : String) (n' : Option Int)
    (h1 : stateNormD c.state ≠ "OPEN") (h2 : s' = "OPEN") :
    should_replace (some (mkCand c)) s' n' = true := by
  rw [should_replace_mkCand]
  rw [if_pos ⟨h1, h2⟩]

/-- Against a stored OPEN candidate, a non-OPEN candidate never
replaces. -/
theorem should_replace_mkCand_down (c : ResolvedChannel) (s' : String) (n' : Option Int)
    (h1 : stateNormD c.state = "OPEN") (h2 : s' ≠ "OPEN") :
    should_replace (some (mkCand c)) s' n' = false := by
  rw [should_replace_mkCand]
  rw [if_neg (by simp [h1]), if_pos ⟨h1, h2⟩]

/-- With equal OPEN-ness on both sides, `should_replace` reduces to the
source-number tie-break. -/
theorem should_replace_mkCand_same (c : ResolvedChannel) (s' : String) (n' : Option Int)
    (h : stateNormD c.state = "OPEN" ↔ s' = "OPEN") :
    should_replace (some (mkCand c)) s' n'
      = srTail (parse_channel_number c.channel_id) n' := by
  rw [should_replace_mkCand]
  by_cases hc : stateNormD c.state = "OPEN"
  · rw [if_neg (fun hx => hx.1 hc), if_neg (fun hx => hx.2 (h.mp hc))]
  · rw [if_neg (fun hx => hc (h.mpr hx.2)), if_neg (fun hx => hc hx.1)]

/-- Merging a row into an empty local map stores its candidate under its
counterparty key. -/
theorem mergeRow_nil (cm : ChainMap) (a : ResolvedChannel)
    (ha1 : errTruthy a.error = false) (ha2 : a.port_id = some "transfer") :
    mergeRow cm [] a = [(cp_key cm a.counterparty_chain_id, mkCand a)] := by
  simp [mergeRow, ha1, ha2, alGet, should_replace, alSet]

/-- Merging a row into a singleton local map at its own key reduces to the
`should_replace` decision. -/
theorem mergeRow_single (cm : ChainMap) (b : ResolvedChannel) (k : String) (cand : Leaf)
    (hb1 : errTruthy b.error = false) (hb2 : b.port_id = some "transfer")
    (hkb : cp_key cm b.counterparty_chain_id = k) :
    mergeRow cm [(k, cand)] b =
      (if should_replace (some cand) (stateNormD b.state) (parse_channel_number b.channel_id)
       then [(k, mkCand b)] else [(k, cand)]) := by
  simp [mergeRow, hb1, hb2, hkb, alGet, alSet]

/-! Claim theorems. -/

/-- C8: channel-id normalization matches the spec's table
(`"channel-56"` to `56`, `"channel-abc"` to null, `"7"` to `7`, null to
null) and is total: on every input it yields an integer or null, never a
parse failure. -/
theorem claim8_parse_channel_number :
    parse_channel_number (some "channel-56") = some 56
    ∧ parse_channel_number (some "channel-abc") = none
    ∧ parse_channel_number (some "7") = some 7
    ∧ parse_channel_number none = none
    ∧ ∀ s : Option String,
        parse_channel_number s = none ∨ ∃ n : Int, parse_channel_number s = some n := by
  refine ⟨by decide, by decide, by decide, rfl, ?_⟩
  intro s
  cases h : parse_channel_number s with
  | none => exact Or.inl rfl
  | some n => exact Or.inr ⟨n, rfl⟩

/-- C5: in the aggregator's conflict resolution, OPEN always wins and is
never downgraded: against a stored entry whose state is not `OPEN`, an
`OPEN` candidate is stored; against a stored `OPEN` entry, a non-`OPEN`
candidate leaves the map unchanged — regardless of the source-channel
numbers of either side. -/
theorem claim5_open_preference (cm : ChainMap) (lm : LocalMap) (r : ResolvedChannel)
    (ex : Leaf)
    (herr : errTruthy r.error = false)
    (hport : r.port_id = some "transfer")
    (hex : alGet lm (cp_key cm r.counterparty_chain_id) = some ex) :
    (pyOrStr (alGet ex "state") ≠ JVal.jstr "OPEN" → stateNormD r.state = "OPEN" →
      mergeRow cm lm r = alSet lm (cp_key cm r.counterparty_chain_id) (mkCand r))
    ∧ (pyOrStr (alGet ex "state") = JVal.jstr "OPEN" → stateNormD r.state ≠ "OPEN" →
      mergeRow cm lm r = lm) := by
  constructor
  · intro hs hc
    have hsr : should_replace (some ex) (stateNormD r.state)
        (parse_channel_number r.channel_id) = true := by
      unfold should_replace
      by_cases hnil : ex = []
      · simp [hnil]
      · simp [hnil, hs, hc]
    simp [mergeRow, herr, hport, hex, hsr]
  · intro hs hc
    have hnil : ex ≠ [] := by
      intro h
      rw [h] at hs
      simp [alGet, pyOrStr] at hs
    have hsr : should_replace (some ex) (stateNormD r.state)
        (parse_channel_number r.channel_id) = false := by
      unfold should_replace
      simp [hnil, hs, hc]
    simp [mergeRow, herr, hport, hex, hsr]

/-- C5 witness: the stored INIT entry for `foo-7` is replaced by the OPEN
candidate with source 99, and a stored OPEN entry is kept against an INIT
candidate. -/
theorem claim5_witness :
    (errTruthy rowOpen99.error = false
      ∧ rowOpen99.port_id = some "transfer"
      ∧ alGet lmInit (cp_key [] rowOpen99.counterparty_chain_id) = some leafInit
      ∧ pyOrStr (alGet leafInit "state") ≠ JVal.jstr "OPEN"
      ∧ stateNormD rowOpen99.state = "OPEN"
      ∧ mergeRow [] lmInit rowOpen99
          = alSet lmInit (cp_key [] rowOpen99.counterparty_chain_id) (mkCand rowOpen99))
    ∧ (pyOrStr (alGet leafOpen7 "state") = JVal.jstr "OPEN"
      ∧ stateNormD rowInit10.state ≠ "OPEN"
      ∧ mergeRow [] lmOpen7 rowInit10 = lmOpen7) :=
  ⟨⟨by decide, by decide, by decide, by decide, by decide,
    (claim5_open_preference [] lmInit rowOpen99 leafInit (by decide) (by decide)
      (by decide)).1 (by decide) (by decide)⟩,
   ⟨by decide, by decide,
    (claim5_open_preference [] lmOpen7 rowInit10 leafOpen7 (by decide) (by decide)
      (by decide)).2 (by decide) (by decide)⟩⟩

/-- C10: when the stored entry and the candidate agree on OPEN-ness and
have equal parseable source-channel numbers, the stored entry is kept and
the candidate is discarded, whatever else the two differ in. -/
theorem claim10_exact_tie (cm : ChainMap) (lm : LocalMap) (r : ResolvedChannel)
    (ex : Leaf) (n : Int)
    (herr : errTruthy r.error = false)
    (hport : r.port_id = some "transfer")
    (hex : alGet lm (cp_key cm r.counterparty_chain_id) = some ex)
    (hopen : pyOrStr (alGet ex "state") = JVal.jstr "OPEN" ↔ stateNormD r.state = "OPEN")
    (hnum : exNumOf ex = some n)
    (hcand : parse_channel_number r.channel_id = some n) :
    mergeRow cm lm r = lm := by
  have hnil : ex ≠ [] := by
    intro h
    rw [h] at hnum
    simp [exNumOf, alGet] at hnum
  have hsr : should_replace (some ex) (stateNormD r.state)
      (parse_channel_number r.channel_id) = false := by
    unfold should_replace
    by_cases hs : pyOrStr (alGet ex "state") = JVal.jstr "OPEN"
    · have hc : stateNormD r.state = "OPEN" := hopen.mp hs
      simp [hnil, hs, hc, hnum, hcand, srTail, lt_irrefl]
    · have hc : stateNormD r.state ≠ "OPEN" := fun h => hs (hopen.mpr h)
      simp [hnil, hs, hc, hnum, hcand, srTail, lt_irrefl]
  simp [mergeRow, herr, hport, hex, hsr]

/-- C10 witness: a stored OPEN source-7 entry survives an OPEN candidate
with the same source number 7 but a different destination. -/
theorem claim10_witness :
    errTruthy rowOpen7b.error = false
    ∧ rowOpen7b.port_id = some "transfer"
    ∧ alGet lmOpen7 (cp_key [] rowOpen7b.counterparty_chain_id) = some leafOpen7
    ∧ (pyOrStr (alGet leafOpen7 "state") = JVal.jstr "OPEN"
        ↔ stateNormD rowOpen7b.state = "OPEN")
    ∧ exNumOf leafOpen7 = some 7
    ∧ parse_channel_number rowOpen7b.channel_id = some 7
    ∧ mergeRow [] lmOpen7 rowOpen7b = lmOpen7 :=
  ⟨by decide, by decide, by decide, by decide, by decide, by decide,
   claim10_exact_tie [] lmOpen7 rowOpen7b leafOpen7 7 (by decide) (by decide)
     (by decide) (by decide) (by decide) (by decide)⟩

/-- C3 counterexample: a resolution failure whose message is the empty
string yields a record with the `error` field present, yet the aggregation
loop stores an entry for it (the truthiness check `if r.get("error")` does
not skip an empty message), refuting the claim's "for any error message
value". -/
theorem claim3_counterexample :
    map_channels "transfer" none fetchBad rawsBad
      = [{ channel_id := some "channel-3", port_id := some "transfer", error := some "" }]
    ∧ aggregate_all [("A", Except.ok (map_channels "transfer" none fetchBad rawsBad))] []
      = [("A", [("UNKNOWN",
          [("source channel", JVal.jint 3),
           ("destiation channel", JVal.jnull),
           ("state", JVal.jstr "UNKNOWN")])])]
    ∧ aggregate_all [("A", Except.ok (map_channels "transfer" none fetchBad rawsBad))] []
      ≠ [("A", [])] := by
  refine ⟨by decide, by decide, by decide⟩

/-- C3 amended: every record whose `error` field is present with a
non-empty message contributes nothing to the aggregate: the row loop leaves
the local map unchanged on it, and deleting it from the row list leaves the
aggregation of the remaining rows unchanged. (A record with `error`
present but equal to `""` is treated as non-errored by the code's
truthiness test.) -/
theorem claim3_error_rows_excluded (cm : ChainMap) (lm : LocalMap) (r : ResolvedChannel)
    (m : String) (hm : r.error = some m) (hne : m ≠ "") :
    mergeRow cm lm r = lm
    ∧ ∀ pre post : List ResolvedChannel,
        (pre ++ r :: post).foldl (mergeRow cm) lm = (pre ++ post).foldl (mergeRow cm) lm := by
  refine ⟨mergeRow_error_skip cm lm r m hm hne, ?_⟩
  intro pre post
  simp only [List.foldl_append, List.foldl_cons]
  rw [mergeRow_error_skip cm _ r m hm hne]

/-- C3 witness: a row with error message `"boom"` leaves the local map
untouched in both forms. -/
theorem claim3_witness :
    rowErr.error = some "boom"
    ∧ "boom" ≠ ""
    ∧ mergeRow [] lmInit rowErr = lmInit
    ∧ ([] ++ rowErr :: []).foldl (mergeRow []) lmInit = ([] ++ []).foldl (mergeRow []) lmInit :=
  ⟨rfl, by decide,
   (claim3_error_rows_excluded [] lmInit rowErr "boom" rfl (by decide)).1,
   (claim3_error_rows_excluded [] lmInit rowErr "boom" rfl (by decide)).2 [] []⟩

/-- C4 counterexample: with a raw list state `STATE_OPEN`, the channel
resolver produces a successful (non-error) record whose `state` field is
still the `STATE_`-prefixed raw value — normalization does not happen in
`map_channels`. -/
theorem claim4_counterexample :
    map_channels "transfer" none fetchGood4 [raw4] = [resolved4]
    ∧ resolved4.error = none
    ∧ resolved4.state = some "STATE_OPEN"
    ∧ strStartsWith "STATE_OPEN" "STATE_" = true := by
  refine ⟨by decide, rfl, rfl, by decide⟩

/-- C4 amended: resolved channels carry the raw state unchanged; it is the
aggregator that normalizes, via `normalize_state` with an `"UNKNOWN"`
default: the candidate entry stored for a row always holds
`stateNormD r.state`, which maps the prefixed raw states to their
unprefixed form (`STATE_OPEN` to `OPEN`, etc.), keeps unprefixed states,
and turns an absent state into `"UNKNOWN"`; in particular the raw
`STATE_OPEN` of the counterexample surfaces in the aggregate as `OPEN`. -/
theorem claim4_state_normalized_in_aggregator :
    stateNormD (some "STATE_OPEN") = "OPEN"
    ∧ stateNormD (some "STATE_INIT") = "INIT"
    ∧ stateNormD (some "STATE_TRYOPEN") = "TRYOPEN"
    ∧ stateNormD (some "STATE_CLOSED") = "CLOSED"
    ∧ stateNormD (some "OPEN") = "OPEN"
    ∧ stateNormD none = "UNKNOWN"
    ∧ (∀ r : ResolvedChannel,
        alGet (mkCand r) "state" = some (JVal.jstr (stateNormD r.state)))
    ∧ aggregate_all [("A", Except.ok [resolved4])] [("osmosis-1", "OSMO")]
      = [("A", [("OSMO",
          [("source channel", JVal.jint 1),
           ("destiation channel", JVal.jint 9),
           ("state", JVal.jstr "OPEN")])])] := by
  refine ⟨by decide, by decide, by decide, by decide, by decide, rfl,
    alGet_mkCand_state, by decide⟩

/-- Helper for the conditional order-independence of the tie-break: when
the two parsed source numbers differ, the smaller-source decision picks the
same final leaf from either processing order. -/
theorem tie_break_symm {β : Type} (x y : β) (na nb : Option Int) (h : na ≠ nb) :
    (if srTail na nb = true then y else x)
    = (if srTail nb na = true then x else y) := by
  unfold srTail
  cases na with
  | none =>
    cases nb with
    | none => exact absurd rfl h
    | some m => simp
  | some m =>
    cases nb with
    | none => simp
    | some m' =>
      have hne : m ≠ m' := fun e => h (by rw [e])
      rcases lt_trichotomy m m' with hlt | heq | hlt
      · simp [hlt, lt_asymm hlt]
      · exact absurd heq hne
      · simp [hlt, lt_asymm hlt]

/-- C2 counterexample: two OPEN candidates for the same counterparty with
the same source number 5 but different destinations produce different
final aggregates depending on processing order (the first one processed
wins an exact tie), refuting unconditional order-independence. -/
theorem claim2_counterexample :
    aggregate_all [("A", Except.ok [rowA2, rowB2])] []
      ≠ aggregate_all [("A", Except.ok [rowB2, rowA2])] [] := by
  decide

/-- C2 amended: conflict resolution is order-independent for two candidates
of the same (local symbol, counterparty key) pair whenever they differ in
OPEN-ness or in parsed source-channel number; when both coincide the stored
result depends on processing order (equal numbers keep the first, two
unparseable numbers keep the last). -/
theorem claim2_order_conditional (cm : ChainMap) (a b : ResolvedChannel)
    (ha1 : errTruthy a.error = false) (ha2 : a.port_id = some "transfer")
    (hb1 : errTruthy b.error = false) (hb2 : b.port_id = some "transfer")
    (hkey : cp_key cm a.counterparty_chain_id = cp_key cm b.counterparty_chain_id)
    (hdiff : ¬(stateNormD a.state = "OPEN" ↔ stateNormD b.state = "OPEN")
             ∨ parse_channel_number a.channel_id ≠ parse_channel_number b.channel_id) :
    List.foldl (mergeRow cm) [] [a, b] = List.foldl (mergeRow cm) [] [b, a] := by
  have hfa := mergeRow_nil cm a ha1 ha2
  have hfb := mergeRow_nil cm b hb1 hb2
  have hL : List.foldl (mergeRow cm) [] [a, b]
      = (if should_replace (some (mkCand a)) (stateNormD b.state)
            (parse_channel_number b.channel_id)
         then [(cp_key cm a.counterparty_chain_id, mkCand b)]
         else [(cp_key cm a.counterparty_chain_id, mkCand a)]) := by
    have h1 : List.foldl (mergeRow cm) [] [a, b] = mergeRow cm (mergeRow cm [] a) b := rfl
    rw [h1, hfa, mergeRow_single cm b _ (mkCand a) hb1 hb2 hkey.symm]
  have hR : List.foldl (mergeRow cm) [] [b, a]
      = (if should_replace (some (mkCand b)) (stateNormD a.state)
            (parse_channel_number a.channel_id)
         then [(cp_key cm a.counterparty_chain_id, mkCand a)]
         else [(cp_key cm a.counterparty_chain_id, mkCand b)]) := by
    have h1 : List.foldl (mergeRow cm) [] [b, a] = mergeRow cm (mergeRow cm [] b) a := rfl
    rw [h1, hfb, ← hkey, mergeRow_single cm a _ (mkCand b) ha1 ha2 rfl]
  rw [hL, hR]
  by_cases hA : stateNormD a.state = "OPEN" <;> by_cases hB : stateNormD b.state = "OPEN"
  · rcases hdiff with h | h
    · exact absurd ⟨fun _ => hB, fun _ => hA⟩ h
    · rw [should_replace_mkCand_same a _ _ (by rw [hA, hB]),
        should_replace_mkCand_same b _ _ (by rw [hA, hB])]
      exact tie_break_symm _ _ _ _ h
  · rw [should_replace_mkCand_down a _ _ hA hB,
      should_replace_mkCand_up b _ _ hB hA]
    simp
  · rw [should_replace_mkCand_up a _ _ hA hB,
      should_replace_mkCand_down b _ _ hB hA]
    simp
  · rcases hdiff with h | h
    · exact absurd ⟨fun hx => absurd hx hA, fun hx => absurd hx hB⟩ h
    · rw [should_replace_mkCand_same a _ _ (by constructor <;> (intro hx; first | exact absurd hx hA | exact absurd hx hB)),
        should_replace_mkCand_same b _ _ (by constructor <;> (intro hx; first | exact absurd hx hB | exact absurd hx hA))]
      exact tie_break_symm _ _ _ _ h

/-- C2 witness: the spec's two example pairs — INIT/src-10 versus
OPEN/src-99, and OPEN/src-8 versus OPEN/src-3 — merge to the same stored
result in either order. -/
theorem claim2_witness :
    (¬(stateNormD rowInit10.state = "OPEN" ↔ stateNormD rowOpen99.state = "OPEN")
      ∧ List.foldl (mergeRow []) [] [rowInit10, rowOpen99]
          = List.foldl (mergeRow []) [] [rowOpen99, rowInit10])
    ∧ (parse_channel_number rowA2w.channel_id ≠ parse_channel_number rowB2w.channel_id
      ∧ List.foldl (mergeRow []) [] [rowA2w, rowB2w]
          = List.foldl (mergeRow []) [] [rowB2w, rowA2w]) :=
  ⟨⟨by decide,
    claim2_order_conditional [] rowInit10 rowOpen99 (by decide) (by decide) (by decide)
      (by decide) (by decide) (Or.inl (by decide))⟩,
   ⟨by decide,
    claim2_order_conditional [] rowA2w rowB2w (by decide) (by decide) (by decide)
      (by decide) (by decide) (Or.inr (by decide))⟩⟩

/-- C9: a channel whose re-fetched detail carries no connection hops is
discarded silently by the resolver — it contributes neither a resolved
record nor an error record, and removing it from the raw list leaves the
resolver's output (hence the aggregate) unchanged. -/
theorem claim9_no_hops (port_filter : String) (state_filter : Option String)
    (f : Fetch) (ch : RawChannel) (d : ChannelDetail)
    (hdet : f.channelDetail ch.channel_id ch.port_id = Except.ok d)
    (hhops : d.connection_hops = []) :
    processChannel port_filter state_filter f ch = []
    ∧ ∀ pre post : List RawChannel,
        map_channels port_filter state_filter f (pre ++ ch :: post)
          = map_channels port_filter state_filter f (pre ++ post) := by
  have hmain : processChannel port_filter state_filter f ch = [] := by
    unfold processChannel
    split
    · rfl
    · split
      · rfl
      · simp [hdet, hhops]
  refine ⟨hmain, ?_⟩
  intro pre post
  simp [map_channels, hmain]

/-- C9 witness: the hop-less transfer channel `raw9` vanishes from the
resolver's output. -/
theorem claim9_witness :
    fetch9.channelDetail raw9.channel_id raw9.port_id = Except.ok detail9
    ∧ detail9.connection_hops = []
    ∧ processChannel "transfer" none fetch9 raw9 = []
    ∧ map_channels "transfer" none fetch9 ([] ++ raw9 :: []) = map_channels "transfer" none fetch9 ([] ++ []) :=
  ⟨rfl, rfl,
   (claim9_no_hops "transfer" none fetch9 raw9 detail9 rfl rfl).1,
   (claim9_no_hops "transfer" none fetch9 raw9 detail9 rfl rfl).2 [] []⟩

/-! Pagination lemmas for C7. -/

theorem paginate_from_shift (resp : Nat → Page) (fuel : Nat) :
    ∀ i, paginate_channels_from resp fuel (i + 1)
      = paginate_channels_from (fun j => resp (j + 1)) fuel i := by
  induction fuel with
  | zero => intro i; rfl
  | succ f ih =>
    intro i
    simp only [paginate_channels_from]
    rw [ih (i + 1)]

theorem paginate_halts (n : Nat) : ∀ (resp : Nat → Page) (fuel : Nat),
    n < fuel → cursorDone (resp n) = true →
    (∀ i, i < n → cursorDone (resp i) = false) →
    paginate_channels_from resp fuel 0
      = ((List.range (n + 1)).map (fun i => (resp i).channels)).flatten := by
  induction n with
  | zero =>
    intro resp fuel hf hdone _
    match fuel, hf with
    | f + 1, _ =>
      simp [paginate_channels_from, hdone, List.range_succ]
  | succ m ih =>
    intro resp fuel hf hdone hfirst
    match fuel, hf with
    | f + 1, hf =>
      have h0 : cursorDone (resp 0) = false := hfirst 0 (Nat.succ_pos m)
      simp only [paginate_channels_from, h0, Bool.false_eq_true, if_false]
      rw [paginate_from_shift resp f 0,
        ih (fun j => resp (j + 1)) f (Nat.lt_of_succ_lt_succ hf) hdone
          (fun i hi => hfirst (i + 1) (Nat.succ_lt_succ hi))]
      conv_rhs => rw [List.range_succ_eq_map]
      simp [List.map_map, Function.comp_def, Nat.succ_eq_add_one]

/-- C7: whenever the n-th response is the first whose continuation cursor
is absent or empty, the paginated fetcher needs only finitely much fuel
(any amount beyond n suffices, i.e. the loop terminates there), returns the
order-preserving concatenation of the pages up to and including that
response, and its length is the sum of the page sizes. -/
theorem claim7_pagination (resp : Nat → Page) (n fuel : Nat)
    (hdone : cursorDone (resp n) = true)
    (hfirst : ∀ i, i < n → cursorDone (resp i) = false)
    (hfuel : n < fuel) :
    paginate_channels resp fuel
      = ((List.range (n + 1)).map (fun i => (resp i).channels)).flatten
    ∧ (paginate_channels resp fuel).length
      = ((List.range (n + 1)).map (fun i => (resp i).channels.length)).sum := by
  have h := paginate_halts n resp fuel hfuel hdone hfirst
  refine ⟨h, ?_⟩
  unfold paginate_channels
  rw [h, List.length_flatten, List.map_map]
  rfl

/-- C7 witness: a two-page sequence (sizes 2 and 1, cursor gone on the
second response) is concatenated in order, with length 3, and any fuel
beyond the halt point gives the same answer. -/
theorem claim7_witness :
    cursorDone (respW 1) = true
    ∧ (∀ i, i < 1 → cursorDone (respW i) = false)
    ∧ 1 < 3
    ∧ paginate_channels respW 3
        = ((List.range 2).map (fun i => (respW i).channels)).flatten
    ∧ (paginate_channels respW 3).length
        = ((List.range 2).map (fun i => (respW i).channels.length)).sum :=
  ⟨by decide, by decide, by decide,
   (claim7_pagination respW 1 3 (by decide) (by decide) (by decide)).1,
   (claim7_pagination respW 1 3 (by decide) (by decide) (by decide)).2⟩

/-! Endpoint-isolation lemmas for C6. -/

theorem stepEndpoint_get_ne (cm : ChainMap) (res : AggResult) (ep : EndpointRun)
    (s : String) (h : s ≠ ep.1) :
    alGet (stepEndpoint cm res ep) s = alGet res s := by
  obtain ⟨sym, o⟩ := ep
  cases o <;> simp [stepEndpoint, alGet_alSet_ne _ _ _ _ h]

theorem foldl_step_get_congr (cm : ChainMap) (l : List EndpointRun) (s : String) :
    ∀ res res', alGet res s = alGet res' s →
    alGet (l.foldl (stepEndpoint cm) res) s = alGet (l.foldl (stepEndpoint cm) res') s := by
  induction l with
  | nil => intro res res' h; simpa using h
  | cons e t ih =>
    intro res res' h
    simp only [List.foldl_cons]
    apply ih
    by_cases he : s = e.1
    · obtain ⟨sym, o⟩ := e
      subst he
      have hd : alGetD res s ([] : LocalMap) = alGetD res' s [] := by
        rw [alGetD, alGetD, h]
      cases o with
      | error msg =>
        simp only [stepEndpoint]
        rw [alGet_alSet_self, alGet_alSet_self, hd]
      | ok rows =>
        simp only [stepEndpoint]
        rw [alGet_alSet_self, alGet_alSet_self, hd]
    · rw [stepEndpoint_get_ne cm res e s he, stepEndpoint_get_ne cm res' e s he, h]

theorem foldl_step_get_not_mem (cm : ChainMap) (l : List EndpointRun) (s : String) :
    ∀ res, s ∉ l.map Prod.fst →
    alGet (l.foldl (stepEndpoint cm) res) s = alGet res s := by
  induction l with
  | nil => intro res _; rfl
  | cons e t ih =>
    intro res h
    simp only [List.map_cons, List.mem_cons] at h
    push_neg at h
    simp only [List.foldl_cons]
    rw [ih _ h.2, stepEndpoint_get_ne cm res e s h.1]

/-- C6: when one endpoint's whole fetch fails, its local symbol maps to
exactly one diagnostic entry, keyed `__error__` and holding the message;
and for every other symbol the aggregate is the same as if the failing
endpoint had been dropped, or had succeeded with any row list. -/
theorem claim6_endpoint_isolation (cm : ChainMap) (pre post : List EndpointRun)
    (sym msg s : String) (rows : List ResolvedChannel)
    (h1 : sym ∉ pre.map Prod.fst) (h2 : sym ∉ post.map Prod.fst) (hs : s ≠ sym) :
    alGet (aggregate_all (pre ++ (sym, Except.error msg) :: post) cm) sym
      = some [("__error__", [("message", JVal.jstr msg)])]
    ∧ alGet (aggregate_all (pre ++ (sym, Except.error msg) :: post) cm) s
      = alGet (aggregate_all (pre ++ post) cm) s
    ∧ alGet (aggregate_all (pre ++ (sym, Except.error msg) :: post) cm) s
      = alGet (aggregate_all (pre ++ (sym, Except.ok rows) :: post) cm) s := by
  unfold aggregate_all
  simp only [List.foldl_append, List.foldl_cons]
  refine ⟨?_, ?_, ?_⟩
  · rw [foldl_step_get_not_mem cm post sym _ h2]
    have hpre : alGet (pre.foldl (stepEndpoint cm) ([] : AggResult)) sym = none := by
      rw [foldl_step_get_not_mem cm pre sym [] h1]
      rfl
    simp only [stepEndpoint]
    rw [alGet_alSet_self, alGetD, hpre]
    rfl
  · apply foldl_step_get_congr
    rw [stepEndpoint_get_ne cm _ _ s hs]
  · apply foldl_step_get_congr
    rw [stepEndpoint_get_ne cm _ _ s hs, stepEndpoint_get_ne cm _ _ s hs]

/-- C6 witness: with endpoint `B` succeeding and endpoint `A` failing with
message `boom`, `A` maps to the single diagnostic entry and `B`'s result is
unchanged whether `A` fails, is dropped, or succeeds with no rows. -/
theorem claim6_witness :
    ("A" ∉ ([("B", Except.ok [rowC1])] : List EndpointRun).map Prod.fst)
    ∧ ("A" ∉ ([] : List EndpointRun).map Prod.fst)
    ∧ "B" ≠ "A"
    ∧ alGet (aggregate_all ([("B", Except.ok [rowC1])] ++ ("A", Except.error "boom") :: []) []) "A"
        = some [("__error__", [("message", JVal.jstr "boom")])]
    ∧ alGet (aggregate_all ([("B", Except.ok [rowC1])] ++ ("A", Except.error "boom") :: []) []) "B"
        = alGet (aggregate_all ([("B", Except.ok [rowC1])] ++ []) []) "B"
    ∧ alGet (aggregate_all ([("B", Except.ok [rowC1])] ++ ("A", Except.error "boom") :: []) []) "B"
        = alGet (aggregate_all ([("B", Except.ok [rowC1])] ++ ("A", Except.ok []) :: []) []) "B" :=
  ⟨by decide, by decide, by decide,
   (claim6_endpoint_isolation [] [("B", Except.ok [rowC1])] [] "A" "boom" "B" []
     (by decide) (by decide) (by decide)).1,
   (claim6_endpoint_isolation [] [("B", Except.ok [rowC1])] [] "A" "boom" "B" []
     (by decide) (by decide) (by decide)).2.1,
   (claim6_endpoint_isolation [] [("B", Except.ok [rowC1])] [] "A" "boom" "B" []
     (by decide) (by decide) (by decide)).2.2⟩

/-! Leaf-shape invariant lemmas for C1. -/

theorem leafKeysOK_mkCand (r : ResolvedChannel) : leafKeysOK (mkCand r) :=
  Or.inr rfl

theorem lmOK_alSet (lm : LocalMap) (k : String) (v : Leaf)
    (h : lmOK lm) (hv : leafKeysOK v) : lmOK (alSet lm k v) := by
  intro k' v' hmem
  rcases mem_alSet lm k v k' v' hmem with h' | h'
  · exact h k' v' h'
  · rw [h']
    exact hv

theorem lmOK_mergeRow (cm : ChainMap) (lm : LocalMap) (r : ResolvedChannel)
    (h : lmOK lm) : lmOK (mergeRow cm lm r) := by
  unfold mergeRow
  split
  · exact h
  · split
    · exact h
    · show lmOK (if should_replace (alGet lm (cp_key cm r.counterparty_chain_id))
          (stateNormD r.state) (parse_channel_number r.channel_id) = true
        then alSet lm (cp_key cm r.counterparty_chain_id) (mkCand r) else lm)
      split
      · exact lmOK_alSet _ _ _ h (leafKeysOK_mkCand r)
      · exact h

theorem lmOK_foldRows (cm : ChainMap) (rows : List ResolvedChannel) :
    ∀ lm, lmOK lm → lmOK (rows.foldl (mergeRow cm) lm) := by
  induction rows with
  | nil => intro lm h; exact h
  | cons r t ih => intro lm h; exact ih _ (lmOK_mergeRow cm lm r h)

theorem resOK_alGetD (res : AggResult) (s : String) (h : resOK res) :
    lmOK (alGetD res s []) := by
  unfold alGetD
  cases hg : alGet res s with
  | none =>
    intro k v hv
    simp at hv
  | some lm =>
    simpa using h s lm (alGet_mem res s lm hg)

theorem resOK_step (cm : ChainMap) (res : AggResult) (ep : EndpointRun)
    (h : resOK res) : resOK (stepEndpoint cm res ep) := by
  obtain ⟨sym, o⟩ := ep
  cases o with
  | error msg =>
    intro s lm hmem
    rcases mem_alSet _ _ _ _ _ hmem with h' | h'
    · exact h s lm h'
    · rw [h']
      exact lmOK_alSet _ _ _ (resOK_alGetD res sym h) (Or.inl rfl)
  | ok rows =>
    intro s lm hmem
    rcases mem_alSet _ _ _ _ _ hmem with h' | h'
    · exact h s lm h'
    · rw [h']
      exact lmOK_foldRows cm rows _ (resOK_alGetD res sym h)

theorem resOK_aggregate (eps : List EndpointRun) (cm : ChainMap) :
    resOK (aggregate_all eps cm) := by
  unfold aggregate_all
  have hstep : ∀ res, resOK res → resOK (eps.foldl (stepEndpoint cm) res) := by
    induction eps with
    | nil => intro res h; exact h
    | cons e t ih => intro res h; exact ih _ (resOK_step cm res e h)
  apply hstep
  intro s lm hmem
  simp at hmem

/-- C1 amended: the end-to-end single-channel scenario aggregates to the
claimed values, but under the key strings the script actually writes —
`"source channel"` and `"destiation channel"` (sic), not `source_channel` /
`destination_channel`; and in general every leaf of the aggregate is either
the `__error__` diagnostic (sole key `message`) or a channel entry with
exactly those three keys. -/
theorem claim1_aggregate_shape :
    aggregate_all [("A", Except.ok [rowC1])] [("osmosis-1", "OSMO")]
      = [("A", [("OSMO", leafC1)])]
    ∧ ∀ (eps : List EndpointRun) (cm : ChainMap) (sym : String) (lm : LocalMap)
        (k : String) (v : Leaf),
        (sym, lm) ∈ aggregate_all eps cm → (k, v) ∈ lm →
        v.map Prod.fst = ["message"]
        ∨ v.map Prod.fst = ["source channel", "destiation channel", "state"] := by
  refine ⟨by decide, ?_⟩
  intro eps cm sym lm k v hm hv
  exact resOK_aggregate eps cm sym lm hm k v hv

/-- C1 counterexample: the aggregate of the end-to-end scenario is not the
claimed dictionary with keys `source_channel` and `destination_channel` —
the script writes `"source channel"` and `"destiation channel"`. -/
theorem claim1_counterexample :
    aggregate_all [("A", Except.ok [rowC1])] [("osmosis-1", "OSMO")]
      ≠ [("A", [("OSMO",
          [("source_channel", JVal.jint 12),
           ("destination_channel", JVal.jint 99),
           ("state", JVal.jstr "OPEN")])])] := by
  decide

/-- C1 witness: the concrete leaf of the end-to-end scenario satisfies the
key-shape invariant. -/
theorem claim1_witness :
    (("A", [("OSMO", leafC1)])
        ∈ aggregate_all [("A", Except.ok [rowC1])] [("osmosis-1", "OSMO")])
    ∧ (("OSMO", leafC1) ∈ [("OSMO", leafC1)])
    ∧ (leafC1.map Prod.fst = ["message"]
       ∨ leafC1.map Prod.fst = ["source channel", "destiation channel", "state"]) :=
  ⟨by decide, by decide,
   claim1_aggregate_shape.2 [("A", Except.ok [rowC1])] [("osmosis-1", "OSMO")]
     "A" [("OSMO", leafC1)] "OSMO" leafC1 (by decide) (by decide)⟩

end IbcChannels
